import Mathlib

/-!
# osqtool: the `Pack`, `Unpack` and `Verify` operations of `cmd/osqtool/main.go`

A shallow embedding of the three operations of the command-line entry point.
The functions of package `query`, of `os`, `fmt` and `klog` that the entry point
calls are collaborators: their results are fields of an environment `Env`, and
every call made on them is recorded, in program order, in a trace of `Event`s.
Each operation returns the trace together with the Go `error` it returns
(`none` is `nil`).
-/

namespace Osqtool

/-! ## Data model -/

/-- Modelled from the spec: the record type `query.Metadata` is declared in package
`pkg/query`; section 3 of the specification lists its fields. `main.go` reads
only `Name`. -/
structure Metadata where
  Name : String
  Query : String
  Description : String
  Platform : String
  Version : String
  Interval : Int
  Value : String
deriving DecidableEq, Repr

/-- A Go `[]byte`. -/
abbrev Bytes := List UInt8

/-- A Go `map[string]*query.Metadata`, kept as the list of its entries. A well
formed map has pairwise distinct keys (`GoMap.WF`). -/
abbrev GoMap := List (String × Metadata)

/-- Keys of a map are pairwise distinct. -/
def GoMap.WF (mm : GoMap) : Prop := (mm.map Prod.fst).Nodup

/-- The assignment `mm[k] = v`: replaces the value under an existing key, adds the
entry otherwise. -/
def GoMap.insert : GoMap → String → Metadata → GoMap
  | [], k, v => [(k, v)]
  | (k0, v0) :: rest, k, v =>
    if k0 = k then (k, v) :: rest else (k0, v0) :: GoMap.insert rest k v

instance (mm : GoMap) : Decidable (GoMap.WF mm) := by
  unfold GoMap.WF; infer_instance

/-- The builtin `len(mm)`. -/
def GoMap.len (mm : GoMap) : Nat := mm.length

/-- Modelled from the spec: the type `query.Pack` (here `QueryPack`, the name `Pack`
being the operation of `main.go`) is declared in package `pkg/query`; `main.go`
reads only its `Queries` field. -/
structure QueryPack where
  Queries : GoMap
deriving DecidableEq, Repr

/-- The part of `os.FileInfo` that `Verify` reads. -/
structure FileInfo where
  IsDir : Bool
deriving DecidableEq, Repr

/-- Modelled from the spec: the outcome value returned by `query.Verify`, declared in
package `pkg/query` (section 3, VerificationOutcome). `Elapsed` is a duration in
nanoseconds; a result row maps column names to values. -/
structure VerifyResult where
  IncompatiblePlatform : String
  Results : List (List (String × String))
  Elapsed : Nat
deriving DecidableEq, Repr

/-- A Go `error` value other than a `*multierror.Error`:
* `ext msg`: an error made by a collaborator, whose text is `msg`;
* `errorf text`: the result of `fmt.Errorf` with no `%w` verb;
* `wrapf text inner`: the result of `fmt.Errorf` with a `%w` verb: its text is
  `text` and `Unwrap` gives `inner`. -/
inductive BaseError where
  | ext (msg : String)
  | errorf (text : String)
  | wrapf (text : String) (inner : BaseError)
deriving DecidableEq, Repr

/-- The method `Error()`. -/
def BaseError.Error : BaseError → String
  | .ext msg => msg
  | .errorf text => text
  | .wrapf text _ => text

/-- A non-nil Go `error`: a plain error or a `*multierror.Error` holding the list
`Errors`. -/
inductive GoError where
  | plain (e : BaseError)
  | multi (errs : List BaseError)
deriving DecidableEq, Repr

/-- The call `fmt.Errorf(pre + "%v", e)`. -/
def fmtErrorfV (pre : String) (e : BaseError) : BaseError :=
  .errorf (pre ++ e.Error)

/-- The call `fmt.Errorf(pre + "%w", e)`. -/
def fmtErrorfW (pre : String) (e : BaseError) : BaseError :=
  .wrapf (pre ++ e.Error) e

/-- The call `multierror.Append(err, e)` for an `e` that is not itself a
`*multierror.Error`: a nil `err` gives a fresh multi-error holding `e`, a
multi-error gets `e` appended, any other error becomes the first entry. -/
def multierrorAppend (err : Option GoError) (e : BaseError) : GoError :=
  match err with
  | none => .multi [e]
  | some (.multi es) => .multi (es ++ [e])
  | some (.plain p) => .multi [p, e]

/-- The entries (`Errors`) of a returned error; `nil` has none. -/
def errorEntries : Option GoError → List BaseError
  | none => []
  | some (.multi es) => es
  | some (.plain p) => [p]

/-- The two values `query.Verify` returns. -/
structure VerifyReturn where
  vf : VerifyResult
  verr : Option BaseError
deriving DecidableEq, Repr

/-- A call made on a collaborator, with its arguments. The `klog` calls are kept
as the call site and its arguments, not as formatted text. -/
inductive Event where
  | stat (path : String)
  | loadFromDir (path : String)
  | renderPack (mm : GoMap)
  | loadPack (path : String)
  | load (path : String)
  | saveToDirectory (mm : GoMap) (dest : String)
  | writeFile (name : String) (data : Bytes) (perm : Nat)
  | stdout (data : Bytes)
  | queryVerify (name : String) (m : Metadata)
  | klogVerifying (name : String)
  | klogFailed (name : String) (verr : BaseError)
  | klogSkipped (name : String) (platform : String)
  | klogReturned (name : String) (rows : Nat) (elapsed : Nat)
  | klogSummary (found verified errored skipped : Nat)
deriving DecidableEq, Repr

/-- The collaborators of `main.go`. Each field gives the result of the call of
that name. `queryVerify name m` is the result of the call `query.Verify(m)`
made for the map entry keyed `name`. `rangeOrder mm` is the order in which a
`range` statement visits the entries of `mm`: the Go runtime picks it, and
visits every entry exactly once (`rangeOrder_perm`). -/
structure Env where
  stat : String → Except BaseError FileInfo
  loadFromDir : String → Except BaseError GoMap
  renderPack : GoMap → Except BaseError Bytes
  loadPack : String → Except BaseError QueryPack
  load : String → Except BaseError Metadata
  saveToDirectory : GoMap → String → Option BaseError
  writeFile : String → Bytes → Nat → Option BaseError
  stdoutWrite : Bytes → Option BaseError
  queryVerify : String → Metadata → VerifyReturn
  rangeOrder : GoMap → List (String × Metadata)
  rangeOrder_perm : ∀ mm, (rangeOrder mm).Perm mm

/-- The bytes of a Go string. -/
def goBytes (s : String) : Bytes := s.toUTF8.data.toList

/-- The call `strings.HasSuffix(s, suffix)`. -/
def hasSuffix (s suffix : String) : Bool := suffix.data.isSuffixOf s.data

/-! ## `Pack` (main.go, lines 47-64) -/

/-- The function `Pack(sourcePath, output)`. -/
def Pack (env : Env) (sourcePath output : String) : List Event × Option GoError :=
  match env.loadFromDir sourcePath with
  | .error err => ([.loadFromDir sourcePath], some (.plain (fmtErrorfV "load from dir: " err)))
  | .ok mm =>
    match env.renderPack mm with
    | .error err =>
      ([.loadFromDir sourcePath, .renderPack mm], some (.plain (fmtErrorfV "render: " err)))
    | .ok bs =>
      if output = "" then
        ([.loadFromDir sourcePath, .renderPack mm, .stdout (bs ++ [10])],
          (env.stdoutWrite (bs ++ [10])).map GoError.plain)
      else
        ([.loadFromDir sourcePath, .renderPack mm, .writeFile output bs 0o600],
          (env.writeFile output bs 0o600).map GoError.plain)

/-! ## `Unpack` (main.go, lines 66-83) -/

/-- The text `fmt.Printf("%d queries saved to %s\n", n, destPath)` prints. -/
def savedMessage (n : Nat) (destPath : String) : String :=
  toString n ++ " queries saved to " ++ destPath ++ "\n"

/-- The function `Unpack(sourcePath, destPath)`. -/
def Unpack (env : Env) (sourcePath destPath : String) : List Event × Option GoError :=
  let destPath := if destPath = "" then "." else destPath
  match env.loadPack sourcePath with
  | .error err => ([.loadPack sourcePath], some (.plain (fmtErrorfV "load pack: " err)))
  | .ok p =>
    match env.saveToDirectory p.Queries destPath with
    | some err =>
      ([.loadPack sourcePath, .saveToDirectory p.Queries destPath],
        some (.plain (fmtErrorfV "save to dir: " err)))
    | none =>
      ([.loadPack sourcePath, .saveToDirectory p.Queries destPath,
          .stdout (goBytes (savedMessage (GoMap.len p.Queries) destPath))], none)

/-! ## `Verify` (main.go, lines 85-143) -/

/-- Lines 86-111 of `Verify`: the `os.Stat` call and the `switch` that loads the
mapping. Gives the calls made and either the error `Verify` returns at once or
the mapping `mm` the loop goes on with. On every path that reaches the loop the
variable `err` of `Verify` is nil. -/
def verifyLoad (env : Env) (path : String) : List Event × Except GoError GoMap :=
  match env.stat path with
  | .error err => ([.stat path], .error (.plain (fmtErrorfW "stat: " err)))
  | .ok s =>
    if s.IsDir then
      match env.loadFromDir path with
      | .error err =>
        ([.stat path, .loadFromDir path], .error (.plain (fmtErrorfW "load from dir: " err)))
      | .ok mm => ([.stat path, .loadFromDir path], .ok mm)
    else if hasSuffix path ".conf" then
      match env.loadPack path with
      | .error err =>
        ([.stat path, .loadPack path], .error (.plain (fmtErrorfW "load from dir: " err)))
      | .ok p => ([.stat path, .loadPack path], .ok p.Queries)
    else
      match env.load path with
      | .error err => ([.stat path, .load path], .error (.plain (fmtErrorfW "load: " err)))
      | .ok m => ([.stat path, .load path], .ok (GoMap.insert [] m.Name m))

/-- The variables of `Verify` that the loop of lines 117-135 updates, and the
calls made so far. -/
structure LoopState where
  err : Option GoError
  verified : Nat
  skipped : Nat
  errored : Nat
  trace : List Event
deriving DecidableEq, Repr

/-- One iteration of the loop of lines 117-135, for the entry `(name, m)`. -/
def verifyStep (env : Env) (st : LoopState) (entry : String × Metadata) : LoopState :=
  let name := entry.1
  let m := entry.2
  let r := env.queryVerify name m
  let tr := st.trace ++ [.klogVerifying name, .queryVerify name m]
  match r.verr with
  | some verr =>
    { st with
      trace := tr ++ [.klogFailed name verr]
      err := some (multierrorAppend st.err (fmtErrorfW (name ++ ": ") verr))
      errored := st.errored + 1 }
  | none =>
    if r.vf.IncompatiblePlatform ≠ "" then
      { st with
        trace := tr ++ [.klogSkipped name r.vf.IncompatiblePlatform]
        skipped := st.skipped + 1 }
    else
      { st with
        trace := tr ++ [.klogReturned name r.vf.Results.length r.vf.Elapsed]
        verified := st.verified + 1 }

/-- The loop of lines 117-135 run over the entries in the order given. -/
def verifyLoop (env : Env) (order : List (String × Metadata)) (st : LoopState) : LoopState :=
  order.foldl (verifyStep env) st

/-- Lines 113-143 of `Verify`, for the loaded mapping `mm`: the counters start at
zero and `err` is nil, the loop visits the entries in the order `range` gives,
the summary is logged and the final error is returned. -/
def verifyQueries (env : Env) (mm : GoMap) : List Event × Option GoError :=
  let st := verifyLoop env (env.rangeOrder mm)
    { err := none, verified := 0, skipped := 0, errored := 0, trace := [] }
  let trace := st.trace ++ [.klogSummary (GoMap.len mm) st.verified st.errored st.skipped]
  if st.verified = 0 then
    (trace, some (multierrorAppend st.err (.errorf "0 queries were verified")))
  else
    (trace, st.err)

/-- The function `Verify(path)`. -/
def Verify (env : Env) (path : String) : List Event × Option GoError :=
  match verifyLoad env path with
  | (pre, .error err) => (pre, some err)
  | (pre, .ok mm) => (pre ++ (verifyQueries env mm).1, (verifyQueries env mm).2)

/-! ## Reading a trace, and the three classes of a query -/

/-- The entries for which `query.Verify` was called, in call order. -/
def verifyCalls : List Event → List (String × Metadata)
  | [] => []
  | .queryVerify name m :: rest => (name, m) :: verifyCalls rest
  | _ :: rest => verifyCalls rest

/-- The names of the queries whose outcome was logged (failed, skipped or
returned), in log order. -/
def reportedNames : List Event → List String
  | [] => []
  | .klogFailed name _ :: rest => name :: reportedNames rest
  | .klogSkipped name _ :: rest => name :: reportedNames rest
  | .klogReturned name _ _ :: rest => name :: reportedNames rest
  | _ :: rest => reportedNames rest

/-- The summaries logged, each as (found, verified, errored, skipped). -/
def summaries : List Event → List (Nat × Nat × Nat × Nat)
  | [] => []
  | .klogSummary found verified errored skipped :: rest =>
    (found, verified, errored, skipped) :: summaries rest
  | _ :: rest => summaries rest

/-- The verification of the entry returned an error. -/
def isErrored (env : Env) (entry : String × Metadata) : Bool :=
  (env.queryVerify entry.1 entry.2).verr.isSome

/-- The verification of the entry returned no error and a non-empty
`IncompatiblePlatform`. -/
def isSkipped (env : Env) (entry : String × Metadata) : Bool :=
  (env.queryVerify entry.1 entry.2).verr.isNone &&
    decide ((env.queryVerify entry.1 entry.2).vf.IncompatiblePlatform ≠ "")

/-- The verification of the entry returned no error and an empty
`IncompatiblePlatform`. -/
def isVerified (env : Env) (entry : String × Metadata) : Bool :=
  (env.queryVerify entry.1 entry.2).verr.isNone &&
    decide ((env.queryVerify entry.1 entry.2).vf.IncompatiblePlatform = "")

/-- The entry of the combined error for a query: none when its verification
returned no error, else its name, then `": "`, wrapping its error. -/
def queryEntry (env : Env) (entry : String × Metadata) : Option BaseError :=
  (env.queryVerify entry.1 entry.2).verr.map (fun verr => .wrapf (entry.1 ++ ": " ++ verr.Error) verr)

/-- The entry added when no query was verified. -/
def zeroVerified : BaseError := .errorf "0 queries were verified"

/-- Go's `a < b` on strings, given their characters: lexicographic order (Go compares
bytes, which for UTF-8 text is the order of the code points). -/
def strLt : List Char → List Char → Bool
  | _, [] => false
  | [], _ :: _ => true
  | a :: as, b :: bs => decide (a.toNat < b.toNat) || (decide (a.toNat = b.toNat) && strLt as bs)

/-- Names in strictly ascending order. -/
def ascending (names : List String) : Prop :=
  names.Pairwise (fun a b => strLt a.data b.data = true)

instance (names : List String) : Decidable (ascending names) := by
  unfold ascending; infer_instance

/-! ## A concrete scenario -/

/-- A query record with the given name and text. -/
def mkQuery (name text : String) : Metadata :=
  { Name := name, Query := text, Description := "", Platform := "", Version := "",
    Interval := 0, Value := "" }

/-- Four queries: `a` and `b` run, `c` is for another platform, `d` fails. -/
def demoMap : GoMap :=
  [("a", mkQuery "a" "select 1"), ("b", mkQuery "b" "select 2"),
   ("c", mkQuery "c" "select * from launchd"), ("d", mkQuery "d" "selec")]

/-- The two queries found in the directory of the scenario. -/
def dirMap : GoMap :=
  [("a", mkQuery "a" "select 1"), ("b", mkQuery "b" "select 2")]

/-- Result of `query.Verify` in the scenario, by name of the query. -/
def demoVerify (name : String) (_m : Metadata) : VerifyReturn :=
  if name = "c" then
    { vf := { IncompatiblePlatform := "darwin", Results := [], Elapsed := 0 }, verr := none }
  else if name = "d" then
    { vf := { IncompatiblePlatform := "linux", Results := [], Elapsed := 0 },
      verr := some (.ext "syntax error") }
  else
    { vf := { IncompatiblePlatform := "", Results := [[("1", "1")]], Elapsed := 1000 },
      verr := none }

/-- The scenario: `packs.conf` is a directory holding the queries of `dirMap`, every
other path is a file; pack files hold the queries of `demoMap`, a source file holds
query `a`; all of them load, rendering and saving succeed, and `range` visits the
entries in the order `order`. -/
def demoEnv (order : GoMap → List (String × Metadata))
    (h : ∀ mm, (order mm).Perm mm) : Env :=
  { stat := fun path => .ok { IsDir := decide (path = "packs.conf") }
    loadFromDir := fun _ => .ok dirMap
    renderPack := fun _ => .ok [123, 125]
    loadPack := fun _ => .ok { Queries := demoMap }
    load := fun _ => .ok (mkQuery "a" "select 1")
    saveToDirectory := fun _ _ => none
    writeFile := fun _ _ _ => none
    stdoutWrite := fun _ => none
    queryVerify := demoVerify
    rangeOrder := order
    rangeOrder_perm := h }

/-- The scenario with `range` visiting the entries as listed. -/
def envListed : Env := demoEnv id (fun _ => List.Perm.refl _)

/-- The scenario with `range` visiting the entries in the reverse order. -/
def envReversed : Env := demoEnv List.reverse (fun mm => List.reverse_perm mm)

/-- The scenario with every collaborator that can fail failing. -/
def envFailing : Env :=
  { envListed with
    loadFromDir := fun _ => .error (.ext "bad directory")
    renderPack := fun _ => .error (.ext "cannot render")
    loadPack := fun _ => .error (.ext "bad pack")
    load := fun _ => .error (.ext "bad file")
    saveToDirectory := fun _ _ => some (.ext "read-only") }

/-- The failing scenario in which `os.Stat` fails too. -/
def envNoStat : Env :=
  { envFailing with stat := fun _ => .error (.ext "no such file") }

/-- The scenario in which packs load but cannot be saved or rendered. -/
def envNoSave : Env :=
  { envListed with
    renderPack := fun _ => .error (.ext "cannot render")
    saveToDirectory := fun _ _ => some (.ext "read-only") }

/-- The scenario with every query failing, entries visited as listed. -/
def envErrListed : Env :=
  { envListed with
    queryVerify := fun _ _ =>
      { vf := { IncompatiblePlatform := "", Results := [], Elapsed := 0 },
        verr := some (.ext "boom") } }

/-- The scenario with every query failing, entries visited in the reverse order. -/
def envErrReversed : Env :=
  { envReversed with
    queryVerify := fun _ _ =>
      { vf := { IncompatiblePlatform := "", Results := [], Elapsed := 0 },
        verr := some (.ext "boom") } }

/-! ## The loop -/

theorem errorEntries_append (err : Option GoError) (e : BaseError) :
    errorEntries (some (multierrorAppend err e)) = errorEntries err ++ [e] := by
  rcases err with _ | (p | es) <;> simp [multierrorAppend, errorEntries]

theorem verifyStep_verified (env : Env) (st : LoopState) (entry : String × Metadata) :
    (verifyStep env st entry).verified = st.verified + (if isVerified env entry then 1 else 0) := by
  unfold verifyStep isVerified
  rcases h : (env.queryVerify entry.1 entry.2).verr with _ | verr
  · by_cases hp : (env.queryVerify entry.1 entry.2).vf.IncompatiblePlatform = "" <;> simp [h, hp]
  · simp [h]

theorem verifyStep_skipped (env : Env) (st : LoopState) (entry : String × Metadata) :
    (verifyStep env st entry).skipped = st.skipped + (if isSkipped env entry then 1 else 0) := by
  unfold verifyStep isSkipped
  rcases h : (env.queryVerify entry.1 entry.2).verr with _ | verr
  · by_cases hp : (env.queryVerify entry.1 entry.2).vf.IncompatiblePlatform = "" <;> simp [h, hp]
  · simp [h]

theorem verifyStep_errored (env : Env) (st : LoopState) (entry : String × Metadata) :
    (verifyStep env st entry).errored = st.errored + (if isErrored env entry then 1 else 0) := by
  unfold verifyStep isErrored
  rcases h : (env.queryVerify entry.1 entry.2).verr with _ | verr
  · by_cases hp : (env.queryVerify entry.1 entry.2).vf.IncompatiblePlatform = "" <;> simp [h, hp]
  · simp [h]

theorem verifyStep_entries (env : Env) (st : LoopState) (entry : String × Metadata) :
    errorEntries (verifyStep env st entry).err
      = errorEntries st.err ++ (queryEntry env entry).toList := by
  unfold verifyStep queryEntry
  rcases h : (env.queryVerify entry.1 entry.2).verr with _ | verr
  · by_cases hp : (env.queryVerify entry.1 entry.2).vf.IncompatiblePlatform = "" <;> simp [h, hp]
  · simp [h, errorEntries_append, fmtErrorfW]

theorem verifyStep_err_none (env : Env) (st : LoopState) (entry : String × Metadata) :
    (verifyStep env st entry).err = none ↔ st.err = none ∧ isErrored env entry = false := by
  unfold verifyStep isErrored
  rcases h : (env.queryVerify entry.1 entry.2).verr with _ | verr
  · by_cases hp : (env.queryVerify entry.1 entry.2).vf.IncompatiblePlatform = "" <;> simp [h, hp]
  · simp [h]

theorem verifyCalls_append (a b : List Event) :
    verifyCalls (a ++ b) = verifyCalls a ++ verifyCalls b := by
  induction a with
  | nil => rfl
  | cons e a ih => cases e <;> simp [verifyCalls, ih]

theorem reportedNames_append (a b : List Event) :
    reportedNames (a ++ b) = reportedNames a ++ reportedNames b := by
  induction a with
  | nil => rfl
  | cons e a ih => cases e <;> simp [reportedNames, ih]

theorem summaries_append (a b : List Event) :
    summaries (a ++ b) = summaries a ++ summaries b := by
  induction a with
  | nil => rfl
  | cons e a ih => cases e <;> simp [summaries, ih]

theorem verifyStep_calls (env : Env) (st : LoopState) (entry : String × Metadata) :
    verifyCalls (verifyStep env st entry).trace = verifyCalls st.trace ++ [entry] := by
  unfold verifyStep
  rcases h : (env.queryVerify entry.1 entry.2).verr with _ | verr
  · by_cases hp : (env.queryVerify entry.1 entry.2).vf.IncompatiblePlatform = "" <;>
      simp [h, hp, verifyCalls_append, verifyCalls]
  · simp [h, verifyCalls_append, verifyCalls]

theorem verifyStep_reported (env : Env) (st : LoopState) (entry : String × Metadata) :
    reportedNames (verifyStep env st entry).trace = reportedNames st.trace ++ [entry.1] := by
  unfold verifyStep
  rcases h : (env.queryVerify entry.1 entry.2).verr with _ | verr
  · by_cases hp : (env.queryVerify entry.1 entry.2).vf.IncompatiblePlatform = "" <;>
      simp [h, hp, reportedNames_append, reportedNames]
  · simp [h, reportedNames_append, reportedNames]

theorem verifyStep_summaries (env : Env) (st : LoopState) (entry : String × Metadata) :
    summaries (verifyStep env st entry).trace = summaries st.trace := by
  unfold verifyStep
  rcases h : (env.queryVerify entry.1 entry.2).verr with _ | verr
  · by_cases hp : (env.queryVerify entry.1 entry.2).vf.IncompatiblePlatform = "" <;>
      simp [h, hp, summaries_append, summaries]
  · simp [h, summaries_append, summaries]

theorem verifyLoop_verified (env : Env) (order : List (String × Metadata)) (st : LoopState) :
    (verifyLoop env order st).verified = st.verified + order.countP (isVerified env) := by
  induction order generalizing st with
  | nil => simp [verifyLoop]
  | cons e rest ih =>
    have h := ih (verifyStep env st e)
    simp only [verifyLoop, List.foldl_cons] at h ⊢
    rw [h, verifyStep_verified, List.countP_cons]
    omega

theorem verifyLoop_skipped (env : Env) (order : List (String × Metadata)) (st : LoopState) :
    (verifyLoop env order st).skipped = st.skipped + order.countP (isSkipped env) := by
  induction order generalizing st with
  | nil => simp [verifyLoop]
  | cons e rest ih =>
    have h := ih (verifyStep env st e)
    simp only [verifyLoop, List.foldl_cons] at h ⊢
    rw [h, verifyStep_skipped, List.countP_cons]
    omega

theorem verifyLoop_errored (env : Env) (order : List (String × Metadata)) (st : LoopState) :
    (verifyLoop env order st).errored = st.errored + order.countP (isErrored env) := by
  induction order generalizing st with
  | nil => simp [verifyLoop]
  | cons e rest ih =>
    have h := ih (verifyStep env st e)
    simp only [verifyLoop, List.foldl_cons] at h ⊢
    rw [h, verifyStep_errored, List.countP_cons]
    omega

theorem verifyLoop_entries (env : Env) (order : List (String × Metadata)) (st : LoopState) :
    errorEntries (verifyLoop env order st).err
      = errorEntries st.err ++ order.filterMap (queryEntry env) := by
  induction order generalizing st with
  | nil => simp [verifyLoop]
  | cons e rest ih =>
    have h := ih (verifyStep env st e)
    simp only [verifyLoop, List.foldl_cons] at h ⊢
    rw [h, verifyStep_entries]
    cases hq : queryEntry env e <;> simp [List.filterMap_cons, hq]

theorem verifyLoop_err_none (env : Env) (order : List (String × Metadata)) (st : LoopState) :
    (verifyLoop env order st).err = none
      ↔ st.err = none ∧ ∀ e ∈ order, isErrored env e = false := by
  induction order generalizing st with
  | nil => simp [verifyLoop]
  | cons e rest ih =>
    have h := ih (verifyStep env st e)
    simp only [verifyLoop, List.foldl_cons] at h ⊢
    rw [h, verifyStep_err_none]
    simp [and_assoc]

theorem verifyLoop_calls (env : Env) (order : List (String × Metadata)) (st : LoopState) :
    verifyCalls (verifyLoop env order st).trace = verifyCalls st.trace ++ order := by
  induction order generalizing st with
  | nil => simp [verifyLoop]
  | cons e rest ih =>
    have h := ih (verifyStep env st e)
    simp only [verifyLoop, List.foldl_cons] at h ⊢
    rw [h, verifyStep_calls]
    simp

theorem verifyLoop_reported (env : Env) (order : List (String × Metadata)) (st : LoopState) :
    reportedNames (verifyLoop env order st).trace
      = reportedNames st.trace ++ order.map Prod.fst := by
  induction order generalizing st with
  | nil => simp [verifyLoop]
  | cons e rest ih =>
    have h := ih (verifyStep env st e)
    simp only [verifyLoop, List.foldl_cons] at h ⊢
    rw [h, verifyStep_reported]
    simp

theorem verifyLoop_summaries (env : Env) (order : List (String × Metadata)) (st : LoopState) :
    summaries (verifyLoop env order st).trace = summaries st.trace := by
  induction order generalizing st with
  | nil => simp [verifyLoop]
  | cons e rest ih =>
    have h := ih (verifyStep env st e)
    simp only [verifyLoop, List.foldl_cons] at h ⊢
    rw [h, verifyStep_summaries]

/-! ## The part of `Verify` after the load -/

theorem verified_after_loop (env : Env) (mm : GoMap) :
    (verifyLoop env (env.rangeOrder mm)
      { err := none, verified := 0, skipped := 0, errored := 0, trace := [] }).verified
      = mm.countP (isVerified env) := by
  rw [verifyLoop_verified, (env.rangeOrder_perm mm).countP_eq]
  simp

theorem verifyQueries_zero (env : Env) (mm : GoMap) (h : mm.countP (isVerified env) = 0) :
    verifyQueries env mm
      = ((verifyLoop env (env.rangeOrder mm)
            { err := none, verified := 0, skipped := 0, errored := 0, trace := [] }).trace
          ++ [.klogSummary mm.length 0 (mm.countP (isErrored env)) (mm.countP (isSkipped env))],
         some (multierrorAppend (verifyLoop env (env.rangeOrder mm)
            { err := none, verified := 0, skipped := 0, errored := 0, trace := [] }).err
            zeroVerified)) := by
  have hp := env.rangeOrder_perm mm
  simp only [verifyQueries, verified_after_loop, h, if_true, GoMap.len, zeroVerified,
    verifyLoop_errored, verifyLoop_skipped, hp.countP_eq, Nat.zero_add]

theorem verifyQueries_pos (env : Env) (mm : GoMap) (h : mm.countP (isVerified env) ≠ 0) :
    verifyQueries env mm
      = ((verifyLoop env (env.rangeOrder mm)
            { err := none, verified := 0, skipped := 0, errored := 0, trace := [] }).trace
          ++ [.klogSummary mm.length (mm.countP (isVerified env)) (mm.countP (isErrored env))
                (mm.countP (isSkipped env))],
         (verifyLoop env (env.rangeOrder mm)
            { err := none, verified := 0, skipped := 0, errored := 0, trace := [] }).err) := by
  have hp := env.rangeOrder_perm mm
  simp only [verifyQueries, verified_after_loop, h, if_false, GoMap.len,
    verifyLoop_errored, verifyLoop_skipped, hp.countP_eq, Nat.zero_add]

theorem verifyQueries_summaries (env : Env) (mm : GoMap) :
    summaries (verifyQueries env mm).1
      = [(mm.length, mm.countP (isVerified env), mm.countP (isErrored env),
          mm.countP (isSkipped env))] := by
  by_cases h : mm.countP (isVerified env) = 0
  · rw [verifyQueries_zero env mm h]
    simp [summaries_append, summaries, verifyLoop_summaries, h]
  · rw [verifyQueries_pos env mm h]
    simp [summaries_append, summaries, verifyLoop_summaries]

theorem verifyQueries_entries (env : Env) (mm : GoMap) :
    errorEntries (verifyQueries env mm).2
      = (env.rangeOrder mm).filterMap (queryEntry env)
        ++ (if mm.countP (isVerified env) = 0 then [zeroVerified] else []) := by
  by_cases h : mm.countP (isVerified env) = 0
  · rw [verifyQueries_zero env mm h]
    simp only [errorEntries_append, verifyLoop_entries, h, if_true]
    simp [errorEntries]
  · rw [verifyQueries_pos env mm h]
    simp only [verifyLoop_entries, h, if_false]
    simp [errorEntries]

theorem verifyQueries_none_iff (env : Env) (mm : GoMap) :
    (verifyQueries env mm).2 = none
      ↔ (∀ e ∈ mm, isErrored env e = false) ∧ mm.countP (isVerified env) ≠ 0 := by
  have hp := env.rangeOrder_perm mm
  by_cases h : mm.countP (isVerified env) = 0
  · rw [verifyQueries_zero env mm h]
    simp [h]
  · rw [verifyQueries_pos env mm h]
    simp only [verifyLoop_err_none, true_and, ne_eq, h, not_false_eq_true, and_true]
    exact ⟨fun hh e he => hh e (hp.mem_iff.mpr he), fun hh e he => hh e (hp.mem_iff.mp he)⟩

theorem verifyQueries_calls (env : Env) (mm : GoMap) :
    verifyCalls (verifyQueries env mm).1 = env.rangeOrder mm := by
  by_cases h : mm.countP (isVerified env) = 0
  · rw [verifyQueries_zero env mm h]
    simp [verifyCalls_append, verifyCalls, verifyLoop_calls]
  · rw [verifyQueries_pos env mm h]
    simp [verifyCalls_append, verifyCalls, verifyLoop_calls]

theorem verifyQueries_reported (env : Env) (mm : GoMap) :
    reportedNames (verifyQueries env mm).1 = (env.rangeOrder mm).map Prod.fst := by
  by_cases h : mm.countP (isVerified env) = 0
  · rw [verifyQueries_zero env mm h]
    simp [reportedNames_append, reportedNames, verifyLoop_reported]
  · rw [verifyQueries_pos env mm h]
    simp [reportedNames_append, reportedNames, verifyLoop_reported]

theorem verifyLoad_readers (env : Env) (path : String) :
    verifyCalls (verifyLoad env path).1 = [] ∧ reportedNames (verifyLoad env path).1 = []
      ∧ summaries (verifyLoad env path).1 = [] := by
  unfold verifyLoad
  repeat' split
  all_goals simp [verifyCalls, reportedNames, summaries]

theorem Verify_of_load (env : Env) (path : String) (mm : GoMap)
    (hload : (verifyLoad env path).2 = .ok mm) :
    Verify env path
      = ((verifyLoad env path).1 ++ (verifyQueries env mm).1, (verifyQueries env mm).2) := by
  unfold Verify
  rcases hv : verifyLoad env path with ⟨pre, r⟩
  rw [hv] at hload
  simp only at hload
  subst hload
  rfl

theorem Verify_of_load_error (env : Env) (path : String) (err : GoError)
    (hload : (verifyLoad env path).2 = .error err) :
    Verify env path = ((verifyLoad env path).1, some err) := by
  unfold Verify
  rcases hv : verifyLoad env path with ⟨pre, r⟩
  rw [hv] at hload
  simp only at hload
  subst hload
  rfl

theorem classes_partition (env : Env) (mm : List (String × Metadata)) :
    mm.countP (isVerified env) + mm.countP (isSkipped env) + mm.countP (isErrored env)
      = mm.length := by
  induction mm with
  | nil => rfl
  | cons e rest ih =>
    simp only [List.countP_cons, List.length_cons]
    have : (if isVerified env e = true then 1 else 0) + (if isSkipped env e = true then 1 else 0)
        + (if isErrored env e = true then 1 else 0) = 1 := by
      unfold isVerified isSkipped isErrored
      cases (env.queryVerify e.1 e.2).verr <;>
        by_cases hp : (env.queryVerify e.1 e.2).vf.IncompatiblePlatform = "" <;> simp [hp]
    omega

theorem filterMap_queryEntry_length (env : Env) (l : List (String × Metadata)) :
    (l.filterMap (queryEntry env)).length = l.countP (isErrored env) := by
  induction l with
  | nil => rfl
  | cons e rest ih =>
    rw [List.countP_cons, List.filterMap_cons]
    rcases hq : (env.queryVerify e.1 e.2).verr with _ | verr
    · simp [queryEntry, isErrored, hq, ih]
    · simp [queryEntry, isErrored, hq, ih]

theorem countP_eq_of_nodup {α : Type} [DecidableEq α] (l : List α) (h : l.Nodup) (a : α) :
    l.countP (fun c => decide (c = a)) = if a ∈ l then 1 else 0 := by
  induction l with
  | nil => rfl
  | cons x xs ih =>
    rw [List.nodup_cons] at h
    rw [List.countP_cons, ih h.2]
    by_cases hx : x = a
    · subst hx
      simp [h.1]
    · have hx2 : ¬ a = x := fun hh => hx hh.symm
      simp [hx, hx2]

theorem filterMap_queryEntry_nil (env : Env) (l : List (String × Metadata))
    (h : l.filterMap (queryEntry env) = []) : ∀ e ∈ l, isErrored env e = false := by
  have hlen := filterMap_queryEntry_length env l
  rw [h] at hlen
  intro e he
  by_contra hne
  have hpos : 0 < l.countP (isErrored env) :=
    List.countP_pos_iff.mpr ⟨e, he, by simpa using hne⟩
  simp at hlen
  omega

/-! ## The claims about `Verify` after a successful load -/

/-- C1: once stat and the load have succeeded with the mapping `mm`, `Verify` returns
a non-nil error exactly when some query of `mm` errored or the number of verified
queries is zero; so it fails on the empty mapping and on a non-empty mapping whose
queries were all skipped, and returns nil when no query errored and one was
verified. -/
theorem Verify_fails_iff (env : Env) (path : String) (mm : GoMap)
    (hload : (verifyLoad env path).2 = .ok mm) :
    ((Verify env path).2 ≠ none
        ↔ (∃ e ∈ mm, isErrored env e = true) ∨ mm.countP (isVerified env) = 0)
    ∧ (mm = [] → (Verify env path).2 ≠ none)
    ∧ (mm ≠ [] → (∀ e ∈ mm, isSkipped env e = true) → (Verify env path).2 ≠ none)
    ∧ ((∀ e ∈ mm, isErrored env e = false) → (∃ e ∈ mm, isVerified env e = true) →
        (Verify env path).2 = none) := by
  rw [Verify_of_load env path mm hload]
  simp only [ne_eq, verifyQueries_none_iff]
  refine ⟨?_, ?_, ?_, ?_⟩
  · constructor
    · intro h
      by_cases hz : mm.countP (isVerified env) = 0
      · exact Or.inr hz
      · left
        by_contra hne
        exact h ⟨fun e he => by
          cases hx : isErrored env e
          · rfl
          · exact absurd ⟨e, he, hx⟩ hne, hz⟩
    · rintro (⟨e, he, hx⟩ | hz) ⟨hall, hnz⟩
      · rw [hall e he] at hx
        exact Bool.false_ne_true hx
      · exact hnz hz
  · rintro rfl ⟨_, hnz⟩
    exact hnz rfl
  · rintro _ hall ⟨_, hnz⟩
    apply hnz
    rw [List.countP_eq_zero]
    intro e he hv
    have hs := hall e he
    unfold isSkipped at hs
    unfold isVerified at hv
    simp only [Bool.and_eq_true, decide_eq_true_eq] at hs hv
    exact hs.2 hv.2
  · rintro hall ⟨e, he, hv⟩
    exact ⟨hall, fun hz => by
      rw [List.countP_eq_zero] at hz
      exact hz e he hv⟩

/-- C1 at the scenario: the pack loads, query `d` errors, and `Verify` fails. -/
theorem Verify_fails_iff_witness :
    (verifyLoad envListed "pack.conf").2 = .ok demoMap
      ∧ (Verify envListed "pack.conf").2 ≠ none :=
  ⟨rfl, (Verify_fails_iff envListed "pack.conf" demoMap rfl).1.mpr
    (Or.inl ⟨("d", mkQuery "d" "selec"), by decide, by decide⟩)⟩

/-- C2: once the load has succeeded with the mapping `mm`, the summary `Verify` logs
gives, besides the size of `mm`, verified = the number of queries with no error and
an empty `IncompatiblePlatform`, errored = the number of queries whose verification
returned an error (whatever the outcome value), skipped = the number of queries
with no error and a non-empty `IncompatiblePlatform`; every query is in exactly one
class and the three counts add up to the size of the mapping. -/
theorem Verify_summary_counts (env : Env) (path : String) (mm : GoMap)
    (hload : (verifyLoad env path).2 = .ok mm) :
    summaries (Verify env path).1
        = [(mm.length, mm.countP (isVerified env), mm.countP (isErrored env),
            mm.countP (isSkipped env))]
    ∧ (∀ e : String × Metadata,
        isErrored env e = (env.queryVerify e.1 e.2).verr.isSome
        ∧ (if isVerified env e then 1 else 0) + (if isSkipped env e then 1 else 0)
            + (if isErrored env e then 1 else 0) = 1)
    ∧ mm.countP (isVerified env) + mm.countP (isSkipped env) + mm.countP (isErrored env)
        = mm.length := by
  rw [Verify_of_load env path mm hload]
  refine ⟨?_, ?_, classes_partition env mm⟩
  · simp [summaries_append, (verifyLoad_readers env path).2.2, verifyQueries_summaries]
  · intro e
    refine ⟨rfl, ?_⟩
    have := classes_partition env [e]
    simpa [List.countP_cons] using this

/-- C2 at the scenario: two queries run, one is skipped and one fails. -/
theorem Verify_summary_counts_witness :
    (verifyLoad envListed "pack.conf").2 = .ok demoMap
      ∧ summaries (Verify envListed "pack.conf").1 = [(4, 2, 1, 1)] :=
  ⟨rfl, (Verify_summary_counts envListed "pack.conf" demoMap rfl).1⟩

/-- C3: once the load has succeeded with the mapping `mm`, the entries of the error
`Verify` returns are one entry per query whose verification returned an error (its
name, then `": "`, wrapping its error), in iteration order, followed, exactly when no
query was verified, by the entry `0 queries were verified`; skipped and verified
queries add nothing, and the error is nil exactly when there is no entry. -/
theorem Verify_combined_error (env : Env) (path : String) (mm : GoMap)
    (hload : (verifyLoad env path).2 = .ok mm) :
    errorEntries (Verify env path).2
        = (env.rangeOrder mm).filterMap (queryEntry env)
          ++ (if mm.countP (isVerified env) = 0 then [zeroVerified] else [])
    ∧ ((env.rangeOrder mm).filterMap (queryEntry env)).Perm (mm.filterMap (queryEntry env))
    ∧ (mm.filterMap (queryEntry env)).length = mm.countP (isErrored env)
    ∧ ((Verify env path).2 = none ↔ errorEntries (Verify env path).2 = []) := by
  have hp := env.rangeOrder_perm mm
  rw [Verify_of_load env path mm hload]
  refine ⟨verifyQueries_entries env mm, hp.filterMap _, filterMap_queryEntry_length env mm, ?_⟩
  constructor
  · intro h
    have h2 : (verifyQueries env mm).2 = none := h
    rw [h2]
    rfl
  · intro h
    rw [verifyQueries_entries] at h
    rw [verifyQueries_none_iff]
    rcases List.append_eq_nil.mp h with ⟨h1, h2⟩
    refine ⟨fun e he => filterMap_queryEntry_nil env _ h1 e (hp.mem_iff.mpr he), ?_⟩
    intro hz
    simp [hz] at h2

/-- C3 at the scenario: the only entry names the failed query `d`. -/
theorem Verify_combined_error_witness :
    (verifyLoad envListed "pack.conf").2 = .ok demoMap
      ∧ errorEntries (Verify envListed "pack.conf").2
          = [.wrapf "d: syntax error" (.ext "syntax error")] :=
  ⟨rfl, (Verify_combined_error envListed "pack.conf" demoMap rfl).1⟩

/-- C4: once the load has succeeded with the mapping `mm` (whose keys are distinct),
the calls of `query.Verify` that `Verify` makes are the entries of `mm`, each called
exactly once and no other query called, whatever the other queries returned. -/
theorem Verify_calls_each_once (env : Env) (path : String) (mm : GoMap)
    (hload : (verifyLoad env path).2 = .ok mm) (hwf : GoMap.WF mm) :
    (verifyCalls (Verify env path).1).Perm mm
    ∧ ∀ name m, (verifyCalls (Verify env path).1).countP (fun c => decide (c = (name, m)))
        = if (name, m) ∈ mm then 1 else 0 := by
  have hp := env.rangeOrder_perm mm
  have hcalls : verifyCalls (Verify env path).1 = env.rangeOrder mm := by
    rw [Verify_of_load env path mm hload]
    simp [verifyCalls_append, (verifyLoad_readers env path).1, verifyQueries_calls]
  rw [hcalls]
  refine ⟨hp, fun name m => ?_⟩
  rw [hp.countP_eq]
  have hc := countP_eq_of_nodup mm (List.Nodup.of_map _ hwf) (name, m)
  by_cases hm : (name, m) ∈ mm
  · simp only [hm, if_true] at hc ⊢
    exact hc
  · simp only [hm, if_false] at hc ⊢
    exact hc

/-- C4 at the scenario: the four queries are called once each, one of them failing
and one skipped. -/
theorem Verify_calls_each_once_witness :
    (verifyLoad envReversed "pack.conf").2 = .ok demoMap ∧ GoMap.WF demoMap
      ∧ verifyCalls (Verify envReversed "pack.conf").1 = demoMap.reverse
      ∧ (verifyCalls (Verify envReversed "pack.conf").1).Perm demoMap :=
  ⟨rfl, by decide, rfl,
    (Verify_calls_each_once envReversed "pack.conf" demoMap rfl (by decide)).1⟩

/-- C5: when stat succeeds, the mapping `Verify` goes on to verify is the result of
`LoadFromDir(path)` if the path is a directory (whatever its name ends in), else the
`Queries` of `LoadPack(path)` if the path ends in `.conf`, else the one-entry mapping
holding the record `m` returned by `Load(path)` under the key `m.Name`. -/
theorem Verify_mapping_choice (env : Env) (path : String) (s : FileInfo) (mm : GoMap)
    (hstat : env.stat path = .ok s)
    (hchoice : (s.IsDir = true ∧ env.loadFromDir path = .ok mm)
      ∨ (s.IsDir = false ∧ hasSuffix path ".conf" = true
          ∧ ∃ p, env.loadPack path = .ok p ∧ mm = p.Queries)
      ∨ (s.IsDir = false ∧ hasSuffix path ".conf" = false
          ∧ ∃ m, env.load path = .ok m ∧ mm = [(m.Name, m)])) :
    (verifyLoad env path).2 = .ok mm
    ∧ Verify env path
        = ((verifyLoad env path).1 ++ (verifyQueries env mm).1, (verifyQueries env mm).2)
    ∧ verifyCalls (Verify env path).1 = env.rangeOrder mm := by
  have hload : (verifyLoad env path).2 = .ok mm := by
    unfold verifyLoad
    rcases hchoice with ⟨hd, hl⟩ | ⟨hd, hs, p, hl, rfl⟩ | ⟨hd, hs, m, hl, rfl⟩
    · simp [hstat, hd, hl]
    · simp [hstat, hd, hs, hl]
    · simp [hstat, hd, hs, hl, GoMap.insert]
  refine ⟨hload, Verify_of_load env path mm hload, ?_⟩
  rw [Verify_of_load env path mm hload]
  simp [verifyCalls_append, (verifyLoad_readers env path).1, verifyQueries_calls]

/-- C5 at the scenario: a directory named `packs.conf` is loaded as a directory, the
file `pack.conf` as a pack and the file `q.sql` as a single query. -/
theorem Verify_mapping_choice_witness :
    (verifyLoad envListed "packs.conf").2 = .ok dirMap
      ∧ (verifyLoad envListed "pack.conf").2 = .ok demoMap
      ∧ (verifyLoad envListed "q.sql").2 = .ok [("a", mkQuery "a" "select 1")] :=
  ⟨(Verify_mapping_choice envListed "packs.conf" ⟨true⟩ dirMap rfl (Or.inl ⟨rfl, rfl⟩)).1,
   (Verify_mapping_choice envListed "pack.conf" ⟨false⟩ demoMap rfl
      (Or.inr (Or.inl ⟨rfl, rfl, ⟨demoMap⟩, rfl, rfl⟩))).1,
   (Verify_mapping_choice envListed "q.sql" ⟨false⟩ [("a", mkQuery "a" "select 1")] rfl
      (Or.inr (Or.inr ⟨rfl, rfl, mkQuery "a" "select 1", rfl, rfl⟩))).1⟩

/-! ## Failures of the load step, `Pack` and `Unpack` -/

/-- C6: a failing load aborts the operation. If `LoadFromDir` fails, `Pack` returns a
non-nil error having called nothing else (no render, print or write); if `LoadPack`
fails, `Unpack` returns a non-nil error having called nothing else (no save, no
count printed); if stat fails, or the load that `Verify` picks fails, `Verify`
returns a non-nil error and calls `query.Verify` for no query. -/
theorem load_failure_aborts (env : Env) (sourcePath other : String) (err : BaseError) :
    (env.loadFromDir sourcePath = .error err →
        (Pack env sourcePath other).1 = [.loadFromDir sourcePath]
        ∧ (Pack env sourcePath other).2 ≠ none)
    ∧ (env.loadPack sourcePath = .error err →
        (Unpack env sourcePath other).1 = [.loadPack sourcePath]
        ∧ (Unpack env sourcePath other).2 ≠ none)
    ∧ ((env.stat sourcePath = .error err
        ∨ (∃ s, env.stat sourcePath = .ok s ∧ s.IsDir = true
            ∧ env.loadFromDir sourcePath = .error err)
        ∨ (∃ s, env.stat sourcePath = .ok s ∧ s.IsDir = false
            ∧ hasSuffix sourcePath ".conf" = true ∧ env.loadPack sourcePath = .error err)
        ∨ (∃ s, env.stat sourcePath = .ok s ∧ s.IsDir = false
            ∧ hasSuffix sourcePath ".conf" = false ∧ env.load sourcePath = .error err)) →
        verifyCalls (Verify env sourcePath).1 = []
        ∧ (Verify env sourcePath).2 ≠ none) := by
  refine ⟨?_, ?_, ?_⟩
  · intro h
    simp [Pack, h]
  · intro h
    simp [Unpack, h]
  · intro h
    have hload : ∃ e, (verifyLoad env sourcePath).2 = .error e := by
      unfold verifyLoad
      rcases h with h | ⟨s, hs, hd, hl⟩ | ⟨s, hs, hd, hx, hl⟩ | ⟨s, hs, hd, hx, hl⟩
      · simp [h]
      · simp [hs, hd, hl]
      · simp [hs, hd, hx, hl]
      · simp [hs, hd, hx, hl]
    rcases hload with ⟨e, he⟩
    rw [Verify_of_load_error env sourcePath e he]
    exact ⟨(verifyLoad_readers env sourcePath).1, by simp⟩

/-- C6 at the failing scenario: `Pack` stops after `LoadFromDir`, `Unpack` after
`LoadPack`, and `Verify` verifies nothing when stat or any of the three loads
fails. -/
theorem load_failure_aborts_witness :
    ((Pack envFailing "queries" "").1 = [.loadFromDir "queries"]
        ∧ (Pack envFailing "queries" "").2 ≠ none)
      ∧ ((Unpack envFailing "pack.conf" "out").1 = [.loadPack "pack.conf"]
        ∧ (Unpack envFailing "pack.conf" "out").2 ≠ none)
      ∧ (verifyCalls (Verify envNoStat "pack.conf").1 = []
        ∧ (Verify envNoStat "pack.conf").2 ≠ none)
      ∧ (verifyCalls (Verify envFailing "packs.conf").1 = []
        ∧ (Verify envFailing "packs.conf").2 ≠ none)
      ∧ (verifyCalls (Verify envFailing "pack.conf").1 = []
        ∧ (Verify envFailing "pack.conf").2 ≠ none)
      ∧ (verifyCalls (Verify envFailing "q.sql").1 = []
        ∧ (Verify envFailing "q.sql").2 ≠ none) :=
  ⟨(load_failure_aborts envFailing "queries" "" (.ext "bad directory")).1 rfl,
   (load_failure_aborts envFailing "pack.conf" "out" (.ext "bad pack")).2.1 rfl,
   (load_failure_aborts envNoStat "pack.conf" "" (.ext "no such file")).2.2 (Or.inl rfl),
   (load_failure_aborts envFailing "packs.conf" "" (.ext "bad directory")).2.2
      (Or.inr (Or.inl ⟨⟨true⟩, rfl, rfl, rfl⟩)),
   (load_failure_aborts envFailing "pack.conf" "" (.ext "bad pack")).2.2
      (Or.inr (Or.inr (Or.inl ⟨⟨false⟩, rfl, rfl, rfl, rfl⟩))),
   (load_failure_aborts envFailing "q.sql" "" (.ext "bad file")).2.2
      (Or.inr (Or.inr (Or.inr ⟨⟨false⟩, rfl, rfl, rfl, rfl⟩)))⟩

/-- C7: when `LoadFromDir` gives `mm`: if `RenderPack(mm)` gives the bytes `bs`, then
with a non-empty output path `Pack` makes one write, of exactly `bs`, to that file
and prints nothing, and with an empty output path it writes no file and prints `bs`
followed by one newline to standard output; if `RenderPack(mm)` fails, `Pack`
returns a non-nil error and neither writes nor prints. -/
theorem Pack_delivers_rendered (env : Env) (sourcePath output : String) (mm : GoMap)
    (hload : env.loadFromDir sourcePath = .ok mm) :
    (∀ bs, env.renderPack mm = .ok bs →
        (output ≠ "" → (Pack env sourcePath output).1
            = [.loadFromDir sourcePath, .renderPack mm, .writeFile output bs 0o600])
        ∧ (output = "" → (Pack env sourcePath output).1
            = [.loadFromDir sourcePath, .renderPack mm, .stdout (bs ++ [10])]))
    ∧ (∀ err, env.renderPack mm = .error err →
        (Pack env sourcePath output).1 = [.loadFromDir sourcePath, .renderPack mm]
        ∧ (Pack env sourcePath output).2 ≠ none) := by
  refine ⟨fun bs hr => ⟨fun ho => ?_, fun ho => ?_⟩, fun err hr => ?_⟩
  · simp [Pack, hload, hr, ho]
  · simp [Pack, hload, hr, ho]
  · simp [Pack, hload, hr]

/-- C7 at the scenario: the rendered bytes go unchanged to `out.conf`, or to standard
output with a newline; nothing is delivered when rendering fails. -/
theorem Pack_delivers_rendered_witness :
    (Pack envListed "queries" "out.conf").1
        = [.loadFromDir "queries", .renderPack dirMap, .writeFile "out.conf" [123, 125] 0o600]
      ∧ (Pack envListed "queries" "").1
        = [.loadFromDir "queries", .renderPack dirMap, .stdout [123, 125, 10]]
      ∧ ((Pack envNoSave "queries" "out.conf").1 = [.loadFromDir "queries", .renderPack dirMap]
        ∧ (Pack envNoSave "queries" "out.conf").2 ≠ none) :=
  ⟨((Pack_delivers_rendered envListed "queries" "out.conf" dirMap rfl).1 [123, 125] rfl).1
      (by decide),
   ((Pack_delivers_rendered envListed "queries" "" dirMap rfl).1 [123, 125] rfl).2 rfl,
   (Pack_delivers_rendered envNoSave "queries" "out.conf" dirMap rfl).2
      (.ext "cannot render") rfl⟩

/-- C8: when `LoadPack` gives the pack `p`, `Unpack` calls `SaveToDirectory` once, with
exactly `p.Queries` and the destination, an empty destination being replaced by `.`
and any other used unchanged. If the save succeeds `Unpack` returns nil and prints
the number of entries of `p.Queries` as the count; if the save fails it returns a
non-nil error and prints nothing. -/
theorem Unpack_saves_queries (env : Env) (sourcePath destPath : String) (p : QueryPack)
    (hload : env.loadPack sourcePath = .ok p) :
    (env.saveToDirectory p.Queries (if destPath = "" then "." else destPath) = none →
        Unpack env sourcePath destPath
          = ([.loadPack sourcePath,
              .saveToDirectory p.Queries (if destPath = "" then "." else destPath),
              .stdout (goBytes (toString p.Queries.length ++ " queries saved to "
                ++ (if destPath = "" then "." else destPath) ++ "\n"))], none))
    ∧ (∀ err, env.saveToDirectory p.Queries (if destPath = "" then "." else destPath)
          = some err →
        (Unpack env sourcePath destPath).1
          = [.loadPack sourcePath,
             .saveToDirectory p.Queries (if destPath = "" then "." else destPath)]
        ∧ (Unpack env sourcePath destPath).2 ≠ none) := by
  refine ⟨fun hs => ?_, fun err hs => ?_⟩
  · simp only [Unpack, hload, hs, savedMessage, GoMap.len]
  · simp only [Unpack, hload, hs]
    simp

/-- C8 at the scenario: with no destination the four queries are saved to `.`, and a
failing save to `out` prints no count. -/
theorem Unpack_saves_queries_witness :
    Unpack envListed "pack.conf" ""
        = ([.loadPack "pack.conf", .saveToDirectory demoMap ".",
            .stdout (goBytes "4 queries saved to .\n")], none)
      ∧ ((Unpack envNoSave "pack.conf" "out").1
          = [.loadPack "pack.conf", .saveToDirectory demoMap "out"]
        ∧ (Unpack envNoSave "pack.conf" "out").2 ≠ none) :=
  ⟨(Unpack_saves_queries envListed "pack.conf" "" ⟨demoMap⟩ rfl).1 rfl,
   (Unpack_saves_queries envNoSave "pack.conf" "out" ⟨demoMap⟩ rfl).2 (.ext "read-only") rfl⟩

/-! ## Iteration order -/

/-- C9 fails: `Verify` does not sort. Over the same pack and the same per-query
results, a run in which `range` gives the entries in reverse calls and reports the
queries as `d, c, b, a`, not in ascending order of name, its combined error lists
the entries in that order, and a run with the entries as listed gives another
sequence and another combined error. -/
theorem Verify_order_not_sorted :
    (verifyLoad envErrReversed "pack.conf").2 = .ok demoMap
      ∧ (verifyLoad envErrListed "pack.conf").2 = .ok demoMap
      ∧ envErrReversed.queryVerify = envErrListed.queryVerify
      ∧ (verifyCalls (Verify envErrReversed "pack.conf").1).map Prod.fst = ["d", "c", "b", "a"]
      ∧ reportedNames (Verify envErrReversed "pack.conf").1 = ["d", "c", "b", "a"]
      ∧ ¬ ascending ((verifyCalls (Verify envErrReversed "pack.conf").1).map Prod.fst)
      ∧ ¬ ascending (reportedNames (Verify envErrReversed "pack.conf").1)
      ∧ errorEntries (Verify envErrReversed "pack.conf").2
          = [.wrapf "d: boom" (.ext "boom"), .wrapf "c: boom" (.ext "boom"),
             .wrapf "b: boom" (.ext "boom"), .wrapf "a: boom" (.ext "boom"), zeroVerified]
      ∧ (verifyCalls (Verify envErrListed "pack.conf").1).map Prod.fst = ["a", "b", "c", "d"]
      ∧ errorEntries (Verify envErrListed "pack.conf").2
          ≠ errorEntries (Verify envErrReversed "pack.conf").2 := by
  refine ⟨rfl, rfl, rfl, rfl, rfl, ?_, ?_, rfl, rfl, ?_⟩
  · decide
  · decide
  · decide

/-- C9 as amended: once the load has succeeded with the mapping `mm`, the calls of
`query.Verify`, the per-query reports and the per-query entries of the combined
error all follow the order in which `range` gives the entries of `mm`, which is some
permutation of the entries; the entry `0 queries were verified`, if any, is last. -/
theorem Verify_follows_range_order (env : Env) (path : String) (mm : GoMap)
    (hload : (verifyLoad env path).2 = .ok mm) :
    (env.rangeOrder mm).Perm mm
    ∧ verifyCalls (Verify env path).1 = env.rangeOrder mm
    ∧ reportedNames (Verify env path).1 = (env.rangeOrder mm).map Prod.fst
    ∧ errorEntries (Verify env path).2
        = (env.rangeOrder mm).filterMap (queryEntry env)
          ++ (if mm.countP (isVerified env) = 0 then [zeroVerified] else []) := by
  rw [Verify_of_load env path mm hload]
  refine ⟨env.rangeOrder_perm mm, ?_, ?_, verifyQueries_entries env mm⟩
  · simp [verifyCalls_append, (verifyLoad_readers env path).1, verifyQueries_calls]
  · simp [reportedNames_append, (verifyLoad_readers env path).2.1, verifyQueries_reported]

/-- C9 as amended, at the scenario with the entries visited in reverse. -/
theorem Verify_follows_range_order_witness :
    (verifyLoad envReversed "pack.conf").2 = .ok demoMap
      ∧ verifyCalls (Verify envReversed "pack.conf").1 = demoMap.reverse
      ∧ reportedNames (Verify envReversed "pack.conf").1 = ["d", "c", "b", "a"] :=
  ⟨rfl, (Verify_follows_range_order envReversed "pack.conf" demoMap rfl).2.1,
    (Verify_follows_range_order envReversed "pack.conf" demoMap rfl).2.2.1⟩

/-- C10: two runs of `Verify` that load the same mapping and get the same per-query
results, with any two iteration orders, log the same counts, both return nil or both
return an error, and their combined errors hold the same entries up to order, the
entry `0 queries were verified` being in both or in neither. -/
theorem Verify_order_independent (env1 env2 : Env) (path : String) (mm : GoMap)
    (hload1 : (verifyLoad env1 path).2 = .ok mm)
    (hload2 : (verifyLoad env2 path).2 = .ok mm)
    (hq : env1.queryVerify = env2.queryVerify) :
    summaries (Verify env1 path).1 = summaries (Verify env2 path).1
    ∧ ((Verify env1 path).2 = none ↔ (Verify env2 path).2 = none)
    ∧ ((env1.rangeOrder mm).filterMap (queryEntry env1)).Perm
        ((env2.rangeOrder mm).filterMap (queryEntry env2))
    ∧ (errorEntries (Verify env1 path).2).Perm (errorEntries (Verify env2 path).2)
    ∧ (zeroVerified ∈ errorEntries (Verify env1 path).2
        ↔ zeroVerified ∈ errorEntries (Verify env2 path).2) := by
  have hv : isVerified env1 = isVerified env2 := by
    funext e; simp [isVerified, hq]
  have he : isErrored env1 = isErrored env2 := by
    funext e; simp [isErrored, hq]
  have hs : isSkipped env1 = isSkipped env2 := by
    funext e; simp [isSkipped, hq]
  have hqe : queryEntry env1 = queryEntry env2 := by
    funext e; simp [queryEntry, hq]
  have hperm : ((env1.rangeOrder mm).filterMap (queryEntry env1)).Perm
      ((env2.rangeOrder mm).filterMap (queryEntry env2)) := by
    rw [hqe]
    exact ((env1.rangeOrder_perm mm).trans (env2.rangeOrder_perm mm).symm).filterMap _
  have hent : (errorEntries (verifyQueries env1 mm).2).Perm
      (errorEntries (verifyQueries env2 mm).2) := by
    rw [verifyQueries_entries, verifyQueries_entries, hv]
    exact hperm.append_right _
  rw [Verify_of_load env1 path mm hload1, Verify_of_load env2 path mm hload2]
  refine ⟨?_, ?_, hperm, hent, hent.mem_iff⟩
  · simp [summaries_append, (verifyLoad_readers env1 path).2.2,
      (verifyLoad_readers env2 path).2.2, verifyQueries_summaries, hv, he, hs]
  · simp only [verifyQueries_none_iff, hv, he]

/-- C10 at the scenario, the entries visited as listed and in reverse. -/
theorem Verify_order_independent_witness :
    (verifyLoad envListed "pack.conf").2 = .ok demoMap
      ∧ (verifyLoad envReversed "pack.conf").2 = .ok demoMap
      ∧ envListed.queryVerify = envReversed.queryVerify
      ∧ summaries (Verify envListed "pack.conf").1 = summaries (Verify envReversed "pack.conf").1
      ∧ (errorEntries (Verify envListed "pack.conf").2).Perm
          (errorEntries (Verify envReversed "pack.conf").2) :=
  ⟨rfl, rfl, rfl,
    (Verify_order_independent envListed envReversed "pack.conf" demoMap rfl rfl rfl).1,
    (Verify_order_independent envListed envReversed "pack.conf" demoMap rfl rfl rfl).2.2.2.1⟩

end Osqtool
